import Mathlib

/-!
Shallow embedding of `src/omnisharp/extension.ts` (the activation entry
point of the OmniSharp VS Code extension) and proofs about its behaviour.

The file is event-driven glue code: `activate` subscribes handlers to the
server's lifecycle events (`onServerStart`, `onServerStop`,
`onBeforeServerStart`) and to host APIs.  We embed it as a state machine:
an activation configuration (the values read synchronously during
`activate`), a state (the `localDisposables` list and whether the returned
promise has settled), and a step function mapping each incoming lifecycle
event to the next state plus the list of observable effects (provider
registrations, disposals, workspace-state updates, telemetry, warning
messages, promise resolution).  Asynchronous collaborator calls made from
inside a start handler (`addAssetsIfNecessary`,
`utils.requestWorkspaceInformation`) are modelled by attaching their
outcome (resolved value or rejection) to the start event that triggers
them.
-/

namespace OmnisharpExtension

/-- A VS Code document selector as used in this file: an optional language
and an optional scheme. -/
structure DocumentSelector where
  language : Option String
  scheme : Option String
  deriving DecidableEq, Repr

/-- The selector declared at the top of `activate`:
`{ language: 'csharp', scheme: 'file' }`. -/
def documentSelector : DocumentSelector :=
  { language := some "csharp", scheme := some "file" }

/-- The kinds of disposables pushed onto `localDisposables` by the
`onServerStart` feature-registration handler, in source order. -/
inductive FeatureKind where
  | metadataDocProvider
  | definition
  | implementation
  | testManager
  | codeLens
  | documentHighlight
  | documentSymbol
  | reference
  | hover
  | rename
  | formattingRange
  | formattingOnType
  | completion
  | workspaceSymbol
  | signatureHelp
  | codeActionObj
  | codeAction
  | diagnostics
  | changeForwarding
  deriving DecidableEq, Repr

/-- One entry of `localDisposables`: which provider it is, the document
selector it was registered with (`none` for disposables that are not
selector-keyed registrations, such as the test manager object), and the
trigger characters passed to the registration call. -/
structure Registration where
  feature : FeatureKind
  selector : Option DocumentSelector
  triggerCharacters : List Char
  deriving DecidableEq, Repr

/-- The sequence of pushes onto `localDisposables` performed by the
`server.onServerStart` handler at lines 52-82 of `extension.ts`,
transcribed in source order.  The two formatting registrations are
guarded by `options.useFormatting`; the second definition-provider
registration uses `{ scheme: definitionMetadataDocumentProvider.scheme }`. -/
def serverStartRegistrations (useFormatting : Bool) (metadataScheme : String) :
    List Registration :=
  [ ⟨.metadataDocProvider, none, []⟩,
    ⟨.definition, some documentSelector, []⟩,
    ⟨.definition, some ⟨none, some metadataScheme⟩, []⟩,
    ⟨.implementation, some documentSelector, []⟩,
    ⟨.testManager, none, []⟩,
    ⟨.codeLens, some documentSelector, []⟩,
    ⟨.documentHighlight, some documentSelector, []⟩,
    ⟨.documentSymbol, some documentSelector, []⟩,
    ⟨.reference, some documentSelector, []⟩,
    ⟨.hover, some documentSelector, []⟩,
    ⟨.rename, some documentSelector, []⟩ ]
  ++ (if useFormatting then
      [ ⟨.formattingRange, some documentSelector, []⟩,
        ⟨.formattingOnType, some documentSelector, ['\x7d', ';']⟩ ]
    else [])
  ++ [ ⟨.completion, some documentSelector, ['.', ' ']⟩,
    ⟨.workspaceSymbol, none, []⟩,
    ⟨.signatureHelp, some documentSelector, ['(', ',']⟩,
    ⟨.codeActionObj, none, []⟩,
    ⟨.codeAction, some documentSelector, []⟩,
    ⟨.diagnostics, none, []⟩,
    ⟨.changeForwarding, none, []⟩ ]

/-- A project entry of a project-system block of a workspace-information
response: its `SourceFiles` array (possibly absent) and its
`IsUnityProject` flag. -/
structure Project where
  SourceFiles : Option (List String)
  IsUnityProject : Bool
  deriving DecidableEq, Repr

/-- A project-system block (`DotNet` or `MsBuild`) of a
workspace-information response. -/
structure ProjectSystemInfo where
  Projects : List Project
  deriving DecidableEq, Repr

/-- A workspace-information response, as consumed by this file: the
`DotNet` and `MsBuild` blocks, each possibly absent. -/
structure WorkspaceInformation where
  DotNet : Option ProjectSystemInfo
  MsBuild : Option ProjectSystemInfo
  deriving DecidableEq, Repr

/-- Modelled from the spec: `safeLength` from `common.ts` (not under
`src/`); the length of a possibly-absent array, 0 when absent ("the
length of each project's SourceFiles (0 when absent)"). -/
def safeLength (xs : Option (List String)) : Nat :=
  match xs with
  | none => 0
  | some l => l.length

/-- Modelled from the spec: `sum` from `common.ts` (not under `src/`);
the sum of a selector applied to each element of an array. -/
def sumBy (xs : List α) (f : α → Nat) : Nat :=
  (xs.map f).foldl (· + ·) 0

/-- The telemetry measures built by the `OmniSharp.Start` telemetry
handler (lines 125-146 of `extension.ts`): keys for the `DotNet` block
when it is present and non-empty, then keys for the `MsBuild` block when
it is present and non-empty.  `isNetCoreProject` stands for
`utils.isNetCoreProject` (not under `src/`), kept abstract. -/
def startTelemetryMeasures (isNetCoreProject : Project → Bool)
    (wi : WorkspaceInformation) : List (String × Nat) :=
  (match wi.DotNet with
   | some dn =>
     if dn.Projects.length > 0 then
       [("projectjson.projectcount", dn.Projects.length),
        ("projectjson.filecount", sumBy dn.Projects (fun p => safeLength p.SourceFiles))]
     else []
   | none => [])
  ++
  (match wi.MsBuild with
   | some mb =>
     if mb.Projects.length > 0 then
       [("msbuild.projectcount", mb.Projects.length),
        ("msbuild.filecount", sumBy mb.Projects (fun p => safeLength p.SourceFiles)),
        ("msbuild.unityprojectcount", sumBy mb.Projects (fun p => if p.IsUnityProject then 1 else 0)),
        ("msbuild.netcoreprojectcount", sumBy mb.Projects (fun p => if isNetCoreProject p then 1 else 0))]
     else []
   | none => [])

/-- Modelled from the spec: the result type of `addAssetsIfNecessary`
from `assets.ts` (not under `src/`).  The spec and this file only
distinguish the `Disable` result from the others. -/
inductive AddAssetResult where
  | notApplicable
  | done
  | disable
  deriving DecidableEq, Repr

/-- The outcome of an asynchronous collaborator call: the promise
resolves with a value, or it rejects. -/
inductive AsyncResult (α : Type) where
  | resolved (value : α)
  | rejected
  deriving DecidableEq, Repr

/-- The data carried by one firing of `onServerStart`: the event payload
(the solution path string passed to the handler) together with the
outcomes of the three asynchronous collaborator calls the start handlers
make (`addAssetsIfNecessary`, and the two independent
`requestWorkspaceInformation` requests of the migration-warning handler
and the telemetry handler). -/
structure StartOutcome where
  payload : String
  assetResult : AsyncResult AddAssetResult
  migrationWorkspaceInfo : AsyncResult WorkspaceInformation
  telemetryWorkspaceInfo : AsyncResult WorkspaceInformation
  deriving DecidableEq, Repr

/-- A server lifecycle event delivered to the activation's handlers. -/
inductive EventInput where
  | beforeServerStart (path : String)
  | serverStart (outcome : StartOutcome)
  | serverStop
  deriving DecidableEq, Repr

/-- A persisted workspace-state value. -/
inductive StateValue where
  | boolVal (b : Bool)
  | strVal (s : String)
  deriving DecidableEq, Repr

/-- An observable effect of processing an event. -/
inductive Effect where
  | register (r : Registration) (id : Nat)
  | dispose (id : Nat)
  | workspaceStateUpdate (key : String) (value : StateValue)
  | telemetryEvent (eventName : String) (measures : List (String × Nat))
  | showWarningMessage (message : String)
  | promiseResolve (payload : String)
  deriving DecidableEq, Repr

/-- The short warning message of the project.json migration handler. -/
def projectJsonWarningMessage : String :=
  "project.json is no longer a supported project format for .NET Core applications."

/-- The values `activate` reads synchronously before subscribing its
handlers: `options.useFormatting`, `options.autoStart`, the metadata
document provider's scheme, `csharp.suppressProjectJsonWarning`, the
persisted `assetPromptDisabled` flag, and `utils.isNetCoreProject`
(kept abstract). -/
structure Config where
  useFormatting : Bool
  autoStart : Bool
  metadataScheme : String
  suppressProjectJsonWarning : Bool
  assetPromptDisabled : Bool
  isNetCoreProject : Project → Bool

/-- The kinds of handlers `activate` subscribes to `onServerStart`. -/
inductive HandlerKind where
  | featureRegistration
  | assetPrompt
  | migrationWarning
  | startTelemetry
  | promiseResolution
  deriving DecidableEq, Repr

/-- The `onServerStart` subscriptions made by `activate`, in source
order: the feature-registration handler; the asset-prompt handler (only
when the persisted `assetPromptDisabled` flag is not truthy); the
migration-warning handler (only when `csharp.suppressProjectJsonWarning`
is not set); the telemetry handler; and the resolver of the returned
promise. -/
def activationServerStartHandlers (cfg : Config) : List HandlerKind :=
  [.featureRegistration]
  ++ (if cfg.assetPromptDisabled then [] else [.assetPrompt])
  ++ (if cfg.suppressProjectJsonWarning then [] else [.migrationWarning])
  ++ [.startTelemetry, .promiseResolution]

/-- The mutable activation-local state: the `localDisposables` array and
whether the promise returned by `activate` has already settled. -/
structure ActState where
  localDisposables : List Registration
  promiseResolved : Bool
  deriving DecidableEq, Repr

/-- The state right after `activate` returns: `localDisposables` is empty
and the returned promise is pending. -/
def initState : ActState :=
  { localDisposables := [], promiseResolved := false }

/-- Register effects for a block of pushes onto `localDisposables`
starting at position `n` of the array: the k-th registration is assigned
id `n + k` (its index in `localDisposables`). -/
def registerEffects : Nat → List Registration → List Effect
  | _, [] => []
  | n, r :: rs => .register r n :: registerEffects (n + 1) rs

/-- The effects of one `onServerStart` handler on one firing, given the
state at that moment and the outcomes of the asynchronous calls. -/
def handlerStartEffects (cfg : Config) (s : ActState) (o : StartOutcome) :
    HandlerKind → List Effect
  | .featureRegistration =>
    registerEffects s.localDisposables.length
      (serverStartRegistrations cfg.useFormatting cfg.metadataScheme)
  | .assetPrompt =>
    match o.assetResult with
    | .resolved .disable => [.workspaceStateUpdate "assetPromptDisabled" (.boolVal true)]
    | _ => []
  | .migrationWarning =>
    match o.migrationWorkspaceInfo with
    | .resolved wi =>
      match wi.DotNet with
      | some dn =>
        if dn.Projects.length > 0 then [.showWarningMessage projectJsonWarningMessage]
        else []
      | none => []
    | .rejected => []
  | .startTelemetry =>
    match o.telemetryWorkspaceInfo with
    | .resolved wi =>
      [.telemetryEvent "OmniSharp.Start" (startTelemetryMeasures cfg.isNetCoreProject wi)]
    | .rejected => []
  | .promiseResolution =>
    if s.promiseResolved then [] else [.promiseResolve o.payload]

/-- The effects of one firing of `onServerStart`: the subscribed start
handlers run in subscription order. -/
def startEffects (cfg : Config) (s : ActState) (o : StartOutcome) : List Effect :=
  (activationServerStartHandlers cfg).flatMap (handlerStartEffects cfg s o)

/-- One step of the activation's event machine: the next state and the
effects of processing one lifecycle event.
`onBeforeServerStart` persists the supplied path under
`lastSolutionPathOrFolder`; `onServerStart` runs the subscribed start
handlers in subscription order (the feature handler appends its
registrations to `localDisposables`, and a `resolve` call settles the
promise); `onServerStop` disposes every element of `localDisposables`
(`vscode.Disposable.from(...localDisposables).dispose()`) without
clearing the array. -/
def step (cfg : Config) (s : ActState) : EventInput → ActState × List Effect
  | .beforeServerStart path =>
    (s, [.workspaceStateUpdate "lastSolutionPathOrFolder" (.strVal path)])
  | .serverStart o =>
    ({ localDisposables :=
         s.localDisposables ++ serverStartRegistrations cfg.useFormatting cfg.metadataScheme,
       promiseResolved := true },
     startEffects cfg s o)
  | .serverStop =>
    (s, (List.range s.localDisposables.length).map .dispose)

/-- The state component of one step. -/
def stepState (cfg : Config) (s : ActState) (ev : EventInput) : ActState :=
  (step cfg s ev).1

/-- The state after processing a list of events from `s`. -/
def runState (cfg : Config) (s : ActState) (evs : List EventInput) : ActState :=
  evs.foldl (stepState cfg) s

/-- The state just before the activation processes event `i` of a
trace. -/
def stateAt (cfg : Config) (evs : List EventInput) (i : Nat) : ActState :=
  runState cfg initState (evs.take i)

/-- The effects of processing event `i` of a trace (empty when the trace
has no event `i`). -/
def effectsAt (cfg : Config) (evs : List EventInput) (i : Nat) : List Effect :=
  match evs[i]? with
  | some ev => (step cfg (stateAt cfg evs i) ev).2
  | none => []

/-- All effects of a trace from a given state, in order. -/
def allEffects (cfg : Config) : ActState → List EventInput → List Effect
  | _, [] => []
  | s, ev :: rest => (step cfg s ev).2 ++ allEffects cfg (stepState cfg s ev) rest

/-- All effects of a trace processed from the post-activation state. -/
def traceEffects (cfg : Config) (evs : List EventInput) : List Effect :=
  allEffects cfg initState evs

/-- The payload of the first `onServerStart` event of a trace, if any. -/
def firstStartPayload : List EventInput → Option String
  | [] => none
  | .serverStart o :: _ => some o.payload
  | _ :: rest => firstStartPayload rest

/-! ### Basic lemmas about the machinery -/

/-- Membership in a block of register effects: exactly the block's
registrations, with ids offset by the block's base position. -/
theorem mem_registerEffects_iff (r : Registration) (id : Nat) :
    ∀ (rs : List Registration) (n : Nat),
      Effect.register r id ∈ registerEffects n rs ↔ ∃ k, rs[k]? = some r ∧ id = n + k := by
  intro rs
  induction rs with
  | nil => intro n; simp [registerEffects]
  | cons hd tl ih =>
    intro n
    simp only [registerEffects, List.mem_cons, Effect.register.injEq, ih (n + 1)]
    constructor
    · rintro (⟨rfl, rfl⟩ | ⟨k, hk, rfl⟩)
      · exact ⟨0, by simp⟩
      · exact ⟨k + 1, by simpa using hk, by omega⟩
    · rintro ⟨k, hk, rfl⟩
      cases k with
      | zero =>
        left
        simp only [List.getElem?_cons_zero, Option.some.injEq] at hk
        exact ⟨hk.symm, by omega⟩
      | succ k =>
        right
        exact ⟨k, by simpa using hk, by omega⟩

/-- Every effect of a register block is a register effect. -/
theorem eq_register_of_mem_registerEffects :
    ∀ (rs : List Registration) (n : Nat) (e : Effect), e ∈ registerEffects n rs →
      ∃ r id, e = .register r id := by
  intro rs
  induction rs with
  | nil => intro n e h; simp [registerEffects] at h
  | cons hd tl ih =>
    intro n e h
    simp only [registerEffects, List.mem_cons] at h
    rcases h with rfl | h
    · exact ⟨hd, n, rfl⟩
    · exact ih (n + 1) e h

/-- The handlers `activate` subscribes to `onServerStart`, characterized:
feature registration, telemetry and the promise resolver are
unconditional; the asset prompt and migration handlers are guarded by the
persisted flag and the suppress setting respectively. -/
theorem mem_activationServerStartHandlers_iff (cfg : Config) (h : HandlerKind) :
    h ∈ activationServerStartHandlers cfg ↔
      (h = .featureRegistration ∨
       (h = .assetPrompt ∧ cfg.assetPromptDisabled = false) ∨
       (h = .migrationWarning ∧ cfg.suppressProjectJsonWarning = false) ∨
       h = .startTelemetry ∨ h = .promiseResolution) := by
  cases hA : cfg.assetPromptDisabled <;> cases hS : cfg.suppressProjectJsonWarning <;>
    simp [activationServerStartHandlers, hA, hS]

/-- Everything a single start handler can emit, by handler kind. -/
theorem mem_handlerStartEffects (cfg : Config) (s : ActState) (o : StartOutcome)
    (h : HandlerKind) (e : Effect) (he : e ∈ handlerStartEffects cfg s o h) :
    (h = .featureRegistration ∧
      e ∈ registerEffects s.localDisposables.length
        (serverStartRegistrations cfg.useFormatting cfg.metadataScheme)) ∨
    (h = .assetPrompt ∧ e = .workspaceStateUpdate "assetPromptDisabled" (.boolVal true) ∧
      o.assetResult = .resolved .disable) ∨
    (h = .migrationWarning ∧ e = .showWarningMessage projectJsonWarningMessage ∧
      ∃ wi dn, o.migrationWorkspaceInfo = .resolved wi ∧ wi.DotNet = some dn ∧
        dn.Projects.length > 0) ∨
    (h = .startTelemetry ∧ ∃ wi, o.telemetryWorkspaceInfo = .resolved wi ∧
      e = .telemetryEvent "OmniSharp.Start" (startTelemetryMeasures cfg.isNetCoreProject wi)) ∨
    (h = .promiseResolution ∧ s.promiseResolved = false ∧ e = .promiseResolve o.payload) := by
  cases h with
  | featureRegistration =>
    left; exact ⟨rfl, he⟩
  | assetPrompt =>
    right; left
    obtain ⟨p, ar, mi, ti⟩ := o
    cases ar with
    | resolved v =>
      cases v <;> simp [handlerStartEffects] at he
      exact ⟨rfl, he, rfl⟩
    | rejected => simp [handlerStartEffects] at he
  | migrationWarning =>
    right; right; left
    obtain ⟨p, ar, mi, ti⟩ := o
    cases mi with
    | resolved wi =>
      obtain ⟨dnet, msb⟩ := wi
      cases dnet with
      | none => simp [handlerStartEffects] at he
      | some dn =>
        by_cases hlen : dn.Projects.length > 0
        · simp only [handlerStartEffects, hlen, if_true, List.mem_singleton] at he
          exact ⟨rfl, he, ⟨some dn, msb⟩, dn, rfl, rfl, hlen⟩
        · simp [handlerStartEffects, hlen] at he
    | rejected => simp [handlerStartEffects] at he
  | startTelemetry =>
    right; right; right; left
    obtain ⟨p, ar, mi, ti⟩ := o
    cases ti with
    | resolved wi =>
      simp [handlerStartEffects] at he
      exact ⟨rfl, wi, rfl, he⟩
    | rejected => simp [handlerStartEffects] at he
  | promiseResolution =>
    right; right; right; right
    obtain ⟨ld, pr⟩ := s
    cases pr with
    | false =>
      simp [handlerStartEffects] at he
      exact ⟨rfl, rfl, he⟩
    | true => simp [handlerStartEffects] at he

/-- Everything a start event can emit. -/
theorem mem_startEffects (cfg : Config) (s : ActState) (o : StartOutcome) (e : Effect)
    (he : e ∈ startEffects cfg s o) :
    (e ∈ registerEffects s.localDisposables.length
        (serverStartRegistrations cfg.useFormatting cfg.metadataScheme)) ∨
    (e = .workspaceStateUpdate "assetPromptDisabled" (.boolVal true) ∧
      cfg.assetPromptDisabled = false ∧ o.assetResult = .resolved .disable) ∨
    (e = .showWarningMessage projectJsonWarningMessage ∧
      cfg.suppressProjectJsonWarning = false ∧
      ∃ wi dn, o.migrationWorkspaceInfo = .resolved wi ∧ wi.DotNet = some dn ∧
        dn.Projects.length > 0) ∨
    (∃ wi, o.telemetryWorkspaceInfo = .resolved wi ∧
      e = .telemetryEvent "OmniSharp.Start" (startTelemetryMeasures cfg.isNetCoreProject wi)) ∨
    (s.promiseResolved = false ∧ e = .promiseResolve o.payload) := by
  rw [startEffects, List.mem_flatMap] at he
  rcases he with ⟨h, hh, he⟩
  rw [mem_activationServerStartHandlers_iff] at hh
  rcases mem_handlerStartEffects cfg s o h e he with
    ⟨rfl, h1⟩ | ⟨rfl, h1, h2⟩ | ⟨rfl, h1, h2⟩ | ⟨rfl, h1⟩ | ⟨rfl, h1, h2⟩
  · exact Or.inl h1
  · refine Or.inr (Or.inl ⟨h1, ?_, h2⟩)
    rcases hh with h | ⟨_, h⟩ | ⟨h, _⟩ | h | h <;> first | exact h | simp at h
  · refine Or.inr (Or.inr (Or.inl ⟨h1, ?_, h2⟩))
    rcases hh with h | ⟨h, _⟩ | ⟨_, h⟩ | h | h <;> first | exact h | simp at h
  · exact Or.inr (Or.inr (Or.inr (Or.inl h1)))
  · exact Or.inr (Or.inr (Or.inr (Or.inr ⟨h1, h2⟩)))

/-- Processing one event never removes entries from `localDisposables`. -/
theorem stepState_localDisposables (cfg : Config) (s : ActState) (ev : EventInput) :
    ∃ t, (stepState cfg s ev).localDisposables = s.localDisposables ++ t := by
  cases ev with
  | beforeServerStart path => exact ⟨[], by simp [stepState, step]⟩
  | serverStart o => exact ⟨_, rfl⟩
  | serverStop => exact ⟨[], by simp [stepState, step]⟩

/-- Unfolding: running a cons. -/
theorem runState_cons (cfg : Config) (s : ActState) (ev : EventInput) (rest : List EventInput) :
    runState cfg s (ev :: rest) = runState cfg (stepState cfg s ev) rest := rfl

/-- Running an appended trace. -/
theorem runState_append (cfg : Config) (s : ActState) (l1 l2 : List EventInput) :
    runState cfg s (l1 ++ l2) = runState cfg (runState cfg s l1) l2 := by
  simp [runState, List.foldl_append]

/-- Processing any trace never removes entries from `localDisposables`. -/
theorem runState_localDisposables (cfg : Config) :
    ∀ (evs : List EventInput) (s : ActState),
      ∃ t, (runState cfg s evs).localDisposables = s.localDisposables ++ t := by
  intro evs
  induction evs with
  | nil => intro s; exact ⟨[], by simp [runState]⟩
  | cons ev rest ih =>
    intro s
    obtain ⟨t1, h1⟩ := stepState_localDisposables cfg s ev
    obtain ⟨t2, h2⟩ := ih (stepState cfg s ev)
    refine ⟨t1 ++ t2, ?_⟩
    rw [runState_cons, h2, h1, List.append_assoc]

/-- The `localDisposables` array at a later point of a trace extends the
array at any earlier point. -/
theorem stateAt_mono (cfg : Config) (evs : List EventInput) {i j : Nat} (hij : i ≤ j) :
    ∃ t, (stateAt cfg evs j).localDisposables =
      (stateAt cfg evs i).localDisposables ++ t := by
  have h1 : evs.take j = evs.take i ++ (evs.take j).drop i := by
    conv_lhs => rw [← List.take_append_drop i (evs.take j)]
    rw [List.take_take, Nat.min_eq_left hij]
  rw [stateAt, h1, runState_append]
  exact runState_localDisposables cfg _ _

/-- The length of `localDisposables` grows monotonically along a trace. -/
theorem stateAt_length_mono (cfg : Config) (evs : List EventInput) {i j : Nat} (hij : i ≤ j) :
    (stateAt cfg evs i).localDisposables.length ≤
      (stateAt cfg evs j).localDisposables.length := by
  obtain ⟨t, ht⟩ := stateAt_mono cfg evs hij
  rw [ht]; simp

/-- The state before event `i + 1` is the state before event `i` stepped
by event `i`. -/
theorem stateAt_succ (cfg : Config) (evs : List EventInput) (i : Nat) (ev : EventInput)
    (h : evs[i]? = some ev) :
    stateAt cfg evs (i + 1) = stepState cfg (stateAt cfg evs i) ev := by
  rw [stateAt, List.take_succ, h]
  rw [runState_append]
  rfl

/-- Unfolding the effects of event `i` when the trace has one. -/
theorem effectsAt_eq (cfg : Config) (evs : List EventInput) (i : Nat) (ev : EventInput)
    (h : evs[i]? = some ev) :
    effectsAt cfg evs i = (step cfg (stateAt cfg evs i) ev).2 := by
  rw [effectsAt, h]

/-- A stop event disposes exactly the ids below the current length of
`localDisposables`. -/
theorem dispose_mem_effectsAt_stop_iff (cfg : Config) (evs : List EventInput) (j id : Nat)
    (h : evs[j]? = some .serverStop) :
    Effect.dispose id ∈ effectsAt cfg evs j ↔
      id < (stateAt cfg evs j).localDisposables.length := by
  rw [effectsAt_eq cfg evs j _ h]
  simp [step]

/-- Register effects are part of any start event's effects. -/
theorem register_mem_startEffects (cfg : Config) (s : ActState) (o : StartOutcome) (e : Effect)
    (he : e ∈ registerEffects s.localDisposables.length
      (serverStartRegistrations cfg.useFormatting cfg.metadataScheme)) :
    e ∈ startEffects cfg s o := by
  rw [startEffects, List.mem_flatMap]
  exact ⟨.featureRegistration,
    by rw [mem_activationServerStartHandlers_iff]; exact Or.inl rfl, he⟩

/-- The register effects of a start event are exactly the block of
registrations of the feature handler, with fresh ids continuing the
current `localDisposables` array. -/
theorem register_mem_effectsAt_start_iff (cfg : Config) (evs : List EventInput) (i : Nat)
    (o : StartOutcome) (r : Registration) (id : Nat) (h : evs[i]? = some (.serverStart o)) :
    Effect.register r id ∈ effectsAt cfg evs i ↔
      ∃ k, (serverStartRegistrations cfg.useFormatting cfg.metadataScheme)[k]? = some r ∧
        id = (stateAt cfg evs i).localDisposables.length + k := by
  rw [effectsAt_eq cfg evs i _ h]
  constructor
  · intro hm
    rcases mem_startEffects cfg _ o _ hm with
      h1 | ⟨h1, _⟩ | ⟨h1, _⟩ | ⟨wi, _, h1⟩ | ⟨_, h1⟩
    · exact (mem_registerEffects_iff r id _ _).mp h1
    all_goals simp at h1
  · intro ⟨k, hk, hid⟩
    exact register_mem_startEffects cfg _ o _
      ((mem_registerEffects_iff r id _ _).mpr ⟨k, hk, hid⟩)

/-- Every register effect of a start event has an id below the length of
`localDisposables` right after that event (and at least the length right
before it: the providers are fresh). -/
theorem register_id_bounds (cfg : Config) (evs : List EventInput) (i : Nat)
    (o : StartOutcome) (r : Registration) (id : Nat) (h : evs[i]? = some (.serverStart o))
    (hm : Effect.register r id ∈ effectsAt cfg evs i) :
    (stateAt cfg evs i).localDisposables.length ≤ id ∧
      id < (stateAt cfg evs (i + 1)).localDisposables.length := by
  rw [register_mem_effectsAt_start_iff cfg evs i o r id h] at hm
  obtain ⟨k, hk, rfl⟩ := hm
  have hklt : k < (serverStartRegistrations cfg.useFormatting cfg.metadataScheme).length := by
    rcases List.getElem?_eq_some.mp hk with ⟨hlt, _⟩
    exact hlt
  rw [stateAt_succ cfg evs i _ h]
  simp [stepState, step]
  omega

/-- The migration handler emits its warning whenever the suppress option
is off, the workspace-information request resolves, and the response has
a non-empty `DotNet` project list. -/
theorem warning_mem_startEffects (cfg : Config) (s : ActState) (o : StartOutcome)
    (wi : WorkspaceInformation) (dn : ProjectSystemInfo)
    (hsup : cfg.suppressProjectJsonWarning = false)
    (hmi : o.migrationWorkspaceInfo = .resolved wi) (hdn : wi.DotNet = some dn)
    (hlen : dn.Projects.length > 0) :
    Effect.showWarningMessage projectJsonWarningMessage ∈ startEffects cfg s o := by
  rw [startEffects, List.mem_flatMap]
  refine ⟨.migrationWarning, ?_, ?_⟩
  · rw [mem_activationServerStartHandlers_iff]
    exact Or.inr (Or.inr (Or.inl ⟨rfl, hsup⟩))
  · simp [handlerStartEffects, hmi, hdn, hlen]

/-- The telemetry handler emits `OmniSharp.Start` whenever its
workspace-information request resolves. -/
theorem telemetry_mem_startEffects (cfg : Config) (s : ActState) (o : StartOutcome)
    (wi : WorkspaceInformation) (hti : o.telemetryWorkspaceInfo = .resolved wi) :
    Effect.telemetryEvent "OmniSharp.Start" (startTelemetryMeasures cfg.isNetCoreProject wi) ∈
      startEffects cfg s o := by
  rw [startEffects, List.mem_flatMap]
  refine ⟨.startTelemetry, ?_, ?_⟩
  · rw [mem_activationServerStartHandlers_iff]
    exact Or.inr (Or.inr (Or.inr (Or.inl rfl)))
  · simp [handlerStartEffects, hti]

/-- The asset handler persists `assetPromptDisabled` whenever it is
subscribed (the flag was not already truthy) and the asset pipeline
resolves with the `Disable` result. -/
theorem assetUpdate_mem_startEffects (cfg : Config) (s : ActState) (o : StartOutcome)
    (hap : cfg.assetPromptDisabled = false) (har : o.assetResult = .resolved .disable) :
    Effect.workspaceStateUpdate "assetPromptDisabled" (.boolVal true) ∈
      startEffects cfg s o := by
  rw [startEffects, List.mem_flatMap]
  refine ⟨.assetPrompt, ?_, ?_⟩
  · rw [mem_activationServerStartHandlers_iff]
    exact Or.inr (Or.inl ⟨rfl, hap⟩)
  · simp [handlerStartEffects, har]

/-! ### Concrete inputs used by witnesses -/

/-- A concrete activation configuration: formatting on, nothing
suppressed. -/
def cfgW : Config :=
  { useFormatting := true, autoStart := true, metadataScheme := "omnisharp-metadata",
    suppressProjectJsonWarning := false, assetPromptDisabled := false,
    isNetCoreProject := fun _ => false }

/-- A concrete activation configuration with `options.useFormatting`
off. -/
def cfgNoFormat : Config :=
  { useFormatting := false, autoStart := true, metadataScheme := "omnisharp-metadata",
    suppressProjectJsonWarning := false, assetPromptDisabled := false,
    isNetCoreProject := fun _ => false }

/-- A concrete project with one source file. -/
def projW : Project := { SourceFiles := some ["a.cs"], IsUnityProject := false }

/-- A concrete start-event outcome where every asynchronous call
resolves. -/
def startOutcomeW : StartOutcome :=
  { payload := "/work/solution.sln", assetResult := .resolved .disable,
    migrationWorkspaceInfo := .resolved ⟨some ⟨[projW]⟩, none⟩,
    telemetryWorkspaceInfo := .resolved ⟨some ⟨[projW]⟩, none⟩ }

/-- A concrete trace: one server start, then one server stop. -/
def evsW : List EventInput := [.serverStart startOutcomeW, .serverStop]

/-! ### Claims -/

/-- The provider kinds named by claim C1: the unconditional pushes of the
feature-registration start handler. -/
def coreStartFeatures : List FeatureKind :=
  [.definition, .implementation, .codeLens, .documentHighlight, .documentSymbol,
   .reference, .hover, .rename, .completion, .workspaceSymbol, .signatureHelp,
   .codeAction, .diagnostics, .changeForwarding]

/-- Each feature of `coreStartFeatures` has a registration in the start
handler's block, whatever the formatting option and metadata scheme. -/
theorem exists_feature_registration (uf : Bool) (ms : String) (f : FeatureKind)
    (hf : f ∈ coreStartFeatures) :
    ∃ r ∈ serverStartRegistrations uf ms, r.feature = f := by
  fin_cases hf <;> cases uf <;>
    first
      | exact ⟨⟨.definition, some documentSelector, []⟩, by simp [serverStartRegistrations], rfl⟩
      | exact ⟨⟨.implementation, some documentSelector, []⟩, by simp [serverStartRegistrations], rfl⟩
      | exact ⟨⟨.codeLens, some documentSelector, []⟩, by simp [serverStartRegistrations], rfl⟩
      | exact ⟨⟨.documentHighlight, some documentSelector, []⟩, by simp [serverStartRegistrations], rfl⟩
      | exact ⟨⟨.documentSymbol, some documentSelector, []⟩, by simp [serverStartRegistrations], rfl⟩
      | exact ⟨⟨.reference, some documentSelector, []⟩, by simp [serverStartRegistrations], rfl⟩
      | exact ⟨⟨.hover, some documentSelector, []⟩, by simp [serverStartRegistrations], rfl⟩
      | exact ⟨⟨.rename, some documentSelector, []⟩, by simp [serverStartRegistrations], rfl⟩
      | exact ⟨⟨.completion, some documentSelector, ['.', ' ']⟩, by simp [serverStartRegistrations], rfl⟩
      | exact ⟨⟨.workspaceSymbol, none, []⟩, by simp [serverStartRegistrations], rfl⟩
      | exact ⟨⟨.signatureHelp, some documentSelector, ['(', ',']⟩, by simp [serverStartRegistrations], rfl⟩
      | exact ⟨⟨.codeAction, some documentSelector, []⟩, by simp [serverStartRegistrations], rfl⟩
      | exact ⟨⟨.diagnostics, none, []⟩, by simp [serverStartRegistrations], rfl⟩
      | exact ⟨⟨.changeForwarding, none, []⟩, by simp [serverStartRegistrations], rfl⟩

/-- C1: for every server-start event of a trace, the activation wires a
fresh set of language feature providers (definition, implementation, code
lens, document highlight, document symbol, reference, hover, rename,
completion, workspace symbol, signature help, code action, diagnostics,
change forwarding) into the local disposable list, and every subsequent
server-stop event disposes every provider registered by that start
(each register effect's id is disposed at the stop). -/
theorem c1_providers_wired_and_disposed (cfg : Config) (evs : List EventInput)
    (i j : Nat) (o : StartOutcome) (hij : i < j)
    (hi : evs[i]? = some (.serverStart o)) (hj : evs[j]? = some EventInput.serverStop) :
    (∀ f ∈ coreStartFeatures,
      (effectsAt cfg evs i).any
        (fun e => match e with
          | .register r _ => decide (r.feature = f)
          | _ => false) = true) ∧
    (∀ r id, Effect.register r id ∈ effectsAt cfg evs i →
      Effect.dispose id ∈ effectsAt cfg evs j) := by
  constructor
  · intro f hf
    obtain ⟨r, hr, hrf⟩ :=
      exists_feature_registration cfg.useFormatting cfg.metadataScheme f hf
    rw [List.mem_iff_getElem?] at hr
    obtain ⟨k, hk⟩ := hr
    rw [List.any_eq_true]
    refine ⟨.register r ((stateAt cfg evs i).localDisposables.length + k), ?_, by simp [hrf]⟩
    exact (register_mem_effectsAt_start_iff cfg evs i o r _ hi).mpr ⟨k, hk, rfl⟩
  · intro r id hm
    obtain ⟨_, hlt⟩ := register_id_bounds cfg evs i o r id hi hm
    rw [dispose_mem_effectsAt_stop_iff cfg evs j id hj]
    exact lt_of_lt_of_le hlt (stateAt_length_mono cfg evs (by omega))

/-- Witness for C1: in the concrete trace `evsW`, the definition provider
registered with id 1 by the start at event 0 is disposed by the stop at
event 1. -/
theorem c1_witness : Effect.dispose 1 ∈ effectsAt cfgW evsW 1 :=
  (c1_providers_wired_and_disposed cfgW evsW 0 1 startOutcomeW (by decide)
      (by decide) (by decide)).2
    ⟨.definition, some documentSelector, []⟩ 1 (by decide)

/-- C6 counterexample: when `options.useFormatting` is false, a
server-start event registers no formatting provider at all, so the claim
that formatting providers are registered on every server start fails at
this concrete input. -/
theorem c6_counterexample :
    evsW[0]? = some (.serverStart startOutcomeW) ∧
    (effectsAt cfgNoFormat evsW 0).any
      (fun e => match e with
        | .register r _ =>
          decide (r.feature = .formattingRange) || decide (r.feature = .formattingOnType)
        | _ => false) = false := by
  decide

/-- C6 amended: when `options.useFormatting` is enabled, every
server-start event registers a document-range formatting provider and an
on-type formatting provider triggered by the closing-brace and semicolon
characters, both keyed by the C# file document selector. -/
theorem c6_formatting_registered_when_enabled (cfg : Config) (evs : List EventInput)
    (i : Nat) (o : StartOutcome) (huf : cfg.useFormatting = true)
    (hi : evs[i]? = some (.serverStart o)) :
    (effectsAt cfg evs i).any
      (fun e => match e with
        | .register r _ => decide (r = ⟨.formattingRange, some documentSelector, []⟩)
        | _ => false) = true ∧
    (effectsAt cfg evs i).any
      (fun e => match e with
        | .register r _ => decide (r = ⟨.formattingOnType, some documentSelector, ['\x7d', ';']⟩)
        | _ => false) = true := by
  constructor
  · rw [List.any_eq_true]
    refine ⟨.register ⟨.formattingRange, some documentSelector, []⟩
      ((stateAt cfg evs i).localDisposables.length + 11), ?_, by simp⟩
    refine (register_mem_effectsAt_start_iff cfg evs i o _ _ hi).mpr ⟨11, ?_, rfl⟩
    rw [huf]; rfl
  · rw [List.any_eq_true]
    refine ⟨.register ⟨.formattingOnType, some documentSelector, ['\x7d', ';']⟩
      ((stateAt cfg evs i).localDisposables.length + 12), ?_, by simp⟩
    refine (register_mem_effectsAt_start_iff cfg evs i o _ _ hi).mpr ⟨12, ?_, rfl⟩
    rw [huf]; rfl

/-- Witness for the amended C6: in the concrete trace `evsW` under
`cfgW` (formatting enabled), event 0 registers both formatting
providers. -/
theorem c6_witness :
    (effectsAt cfgW evsW 0).any
      (fun e => match e with
        | .register r _ => decide (r = ⟨.formattingRange, some documentSelector, []⟩)
        | _ => false) = true ∧
    (effectsAt cfgW evsW 0).any
      (fun e => match e with
        | .register r _ => decide (r = ⟨.formattingOnType, some documentSelector, ['\x7d', ';']⟩)
        | _ => false) = true :=
  c6_formatting_registered_when_enabled cfgW evsW 0 startOutcomeW rfl (by decide)

/-- C10: every selector-keyed registration of the start handler uses the
`{ language: 'csharp', scheme: 'file' }` selector, except the single
registration keyed by the metadata document provider's scheme, which is
the entry at index 2 of the block: the second definition-provider
registration. -/
theorem c10_selector_invariant (uf : Bool) (ms : String) :
    (∀ r ∈ serverStartRegistrations uf ms, ∀ sel, r.selector = some sel →
      sel = documentSelector ∨ sel = ⟨none, some ms⟩) ∧
    (serverStartRegistrations uf ms)[2]? =
      some ⟨.definition, some ⟨none, some ms⟩, []⟩ ∧
    (serverStartRegistrations uf ms).countP
      (fun r => decide (r.selector = some (⟨none, some ms⟩ : DocumentSelector))) = 1 := by
  refine ⟨?_, ?_, ?_⟩
  · intro r hr sel hsel
    cases uf <;> fin_cases hr <;> simp_all [documentSelector]
  · cases uf <;> rfl
  · cases uf <;> simp [serverStartRegistrations, List.countP_cons, documentSelector]

/-- Witness for C10: the selector of the second definition-provider
registration satisfies the invariant's exceptional branch at a concrete
scheme. -/
theorem c10_witness :
    (⟨none, some "omnisharp-metadata"⟩ : DocumentSelector) = documentSelector ∨
      (⟨none, some "omnisharp-metadata"⟩ : DocumentSelector) =
        ⟨none, some "omnisharp-metadata"⟩ :=
  (c10_selector_invariant true "omnisharp-metadata").1
    ⟨.definition, some ⟨none, some "omnisharp-metadata"⟩, []⟩ (by decide) _ rfl

/-- Folding addition over a list starting from `n` adds the list's sum. -/
theorem foldl_add_eq_add_sum (l : List Nat) : ∀ n : Nat, l.foldl (· + ·) n = n + l.sum := by
  induction l with
  | nil => intro n; simp
  | cons a t ih => intro n; rw [List.foldl_cons, ih, List.sum_cons]; omega

/-- `sumBy` is the sum of the mapped list. -/
theorem sumBy_eq_sum_map (xs : List α) (f : α → Nat) : sumBy xs f = (xs.map f).sum := by
  rw [sumBy, foldl_add_eq_add_sum]
  omega

/-- Summing an indicator selector counts the elements satisfying it, the
idiom `sum(projects, p => flag(p) ? 1 : 0)` of the telemetry handler. -/
theorem sumBy_ite_eq_countP (xs : List α) (p : α → Bool) :
    sumBy xs (fun a => if p a then 1 else 0) = xs.countP p := by
  induction xs with
  | nil => simp [sumBy]
  | cons a t ih =>
    rw [sumBy_eq_sum_map, List.map_cons, List.sum_cons, ← sumBy_eq_sum_map, ih,
      List.countP_cons]
    cases hpa : p a
    · simp [hpa]
    · simp [hpa]; omega

/-- C3: the telemetry measures equal the project-system metadata.  When
the `DotNet` project list is present and non-empty, the two
`projectjson` measures are its length and its source-file sum; when the
`MsBuild` list is present and non-empty, the four `msbuild` measures are
its length, its source-file sum, its Unity-project count and its
.NET-Core-project count; when a block is absent or its list is empty,
its keys are omitted. -/
theorem c3_telemetry_measures_match (isNC : Project → Bool) (wi : WorkspaceInformation) :
    (∀ dn, wi.DotNet = some dn → 0 < dn.Projects.length →
      ((startTelemetryMeasures isNC wi).lookup "projectjson.projectcount" =
          some dn.Projects.length ∧
        (startTelemetryMeasures isNC wi).lookup "projectjson.filecount" =
          some (sumBy dn.Projects fun p => safeLength p.SourceFiles))) ∧
    (∀ mb, wi.MsBuild = some mb → 0 < mb.Projects.length →
      ((startTelemetryMeasures isNC wi).lookup "msbuild.projectcount" =
          some mb.Projects.length ∧
        (startTelemetryMeasures isNC wi).lookup "msbuild.filecount" =
          some (sumBy mb.Projects fun p => safeLength p.SourceFiles) ∧
        (startTelemetryMeasures isNC wi).lookup "msbuild.unityprojectcount" =
          some (mb.Projects.countP fun p => p.IsUnityProject) ∧
        (startTelemetryMeasures isNC wi).lookup "msbuild.netcoreprojectcount" =
          some (mb.Projects.countP fun p => isNC p))) ∧
    ((match wi.DotNet with | some dn => dn.Projects.length = 0 | none => True) →
      ((startTelemetryMeasures isNC wi).lookup "projectjson.projectcount" = none ∧
        (startTelemetryMeasures isNC wi).lookup "projectjson.filecount" = none)) ∧
    ((match wi.MsBuild with | some mb => mb.Projects.length = 0 | none => True) →
      ((startTelemetryMeasures isNC wi).lookup "msbuild.projectcount" = none ∧
        (startTelemetryMeasures isNC wi).lookup "msbuild.filecount" = none ∧
        (startTelemetryMeasures isNC wi).lookup "msbuild.unityprojectcount" = none ∧
        (startTelemetryMeasures isNC wi).lookup "msbuild.netcoreprojectcount" = none)) := by
  obtain ⟨dnet, msb⟩ := wi
  refine ⟨?_, ?_, ?_, ?_⟩
  · intro dn hdn hlen
    simp only [] at hdn
    subst hdn
    rcases msb with _ | mb
    · simp [startTelemetryMeasures, hlen, List.lookup]
    · by_cases h2 : 0 < mb.Projects.length <;>
        simp [startTelemetryMeasures, hlen, h2, List.lookup]
  · intro mb hmb hlen
    simp only [] at hmb
    subst hmb
    rcases dnet with _ | dn
    · simp [startTelemetryMeasures, hlen, List.lookup, sumBy_ite_eq_countP]
    · by_cases h1 : 0 < dn.Projects.length <;>
        simp [startTelemetryMeasures, hlen, h1, List.lookup, sumBy_ite_eq_countP]
  · intro hempty
    rcases dnet with _ | dn <;> simp only [] at hempty
    · rcases msb with _ | mb
      · simp [startTelemetryMeasures, List.lookup]
      · by_cases h2 : 0 < mb.Projects.length <;>
          simp [startTelemetryMeasures, h2, List.lookup]
    · rcases msb with _ | mb
      · simp [startTelemetryMeasures, hempty, List.lookup]
      · by_cases h2 : 0 < mb.Projects.length <;>
          simp [startTelemetryMeasures, hempty, h2, List.lookup]
  · intro hempty
    rcases msb with _ | mb <;> simp only [] at hempty
    · rcases dnet with _ | dn
      · simp [startTelemetryMeasures, List.lookup]
      · by_cases h1 : 0 < dn.Projects.length <;>
          simp [startTelemetryMeasures, h1, List.lookup]
    · rcases dnet with _ | dn
      · simp [startTelemetryMeasures, hempty, List.lookup]
      · by_cases h1 : 0 < dn.Projects.length <;>
          simp [startTelemetryMeasures, hempty, h1, List.lookup]

/-- Witness for C3: the measures at a concrete workspace-information
response with one DotNet project owning one source file. -/
theorem c3_witness :
    (startTelemetryMeasures (fun _ => false)
        ⟨some ⟨[projW]⟩, none⟩).lookup "projectjson.projectcount" =
      some (⟨[projW]⟩ : ProjectSystemInfo).Projects.length ∧
    (startTelemetryMeasures (fun _ => false)
        ⟨some ⟨[projW]⟩, none⟩).lookup "projectjson.filecount" =
      some (sumBy (⟨[projW]⟩ : ProjectSystemInfo).Projects fun p => safeLength p.SourceFiles) :=
  (c3_telemetry_measures_match (fun _ => false) ⟨some ⟨[projW]⟩, none⟩).1
    ⟨[projW]⟩ rfl (by decide)

/-- The condition of the migration-warning handler:
`workspaceInfo.DotNet && workspaceInfo.DotNet.Projects.length > 0`. -/
def hasDotNetProjects (wi : WorkspaceInformation) : Bool :=
  match wi.DotNet with
  | some dn => decide (0 < dn.Projects.length)
  | none => false

/-- C4: after a server start whose workspace-information request resolves,
the project.json migration warning is shown if and only if
`csharp.suppressProjectJsonWarning` was not set at activation time and
the response has a `DotNet` section with a non-empty project list;
moreover, when the suppress option is set, no migration-warning handler
is subscribed at all. -/
theorem c4_migration_warning_iff (cfg : Config) (evs : List EventInput) (i : Nat)
    (o : StartOutcome) (wi : WorkspaceInformation)
    (hi : evs[i]? = some (.serverStart o))
    (hmi : o.migrationWorkspaceInfo = .resolved wi) :
    (Effect.showWarningMessage projectJsonWarningMessage ∈ effectsAt cfg evs i ↔
      (cfg.suppressProjectJsonWarning = false ∧ hasDotNetProjects wi = true)) ∧
    (cfg.suppressProjectJsonWarning = true →
      HandlerKind.migrationWarning ∉ activationServerStartHandlers cfg) := by
  constructor
  · rw [effectsAt_eq cfg evs i _ hi]
    constructor
    · intro hm
      rcases mem_startEffects cfg _ o _ hm with
        h1 | ⟨h1, _⟩ | ⟨_, hsup, wi2, dn, hmi2, hdn, hlen⟩ | ⟨wi2, _, h1⟩ | ⟨_, h1⟩
      · obtain ⟨r, id, hre⟩ := eq_register_of_mem_registerEffects _ _ _ h1
        simp at hre
      · simp at h1
      · rw [hmi] at hmi2
        obtain rfl : wi = wi2 := by injection hmi2
        exact ⟨hsup, by simp [hasDotNetProjects, hdn, hlen]⟩
      · simp at h1
      · simp at h1
    · rintro ⟨hsup, hdn⟩
      cases hwd : wi.DotNet with
      | none => rw [hasDotNetProjects, hwd] at hdn; simp at hdn
      | some dn =>
        rw [hasDotNetProjects, hwd] at hdn
        exact warning_mem_startEffects cfg _ o wi dn hsup hmi hwd (of_decide_eq_true hdn)
  · intro hsup hmem
    rw [mem_activationServerStartHandlers_iff] at hmem
    simp [hsup] at hmem

/-- Witness for C4: in the concrete trace `evsW` under `cfgW`
(suppression off, one DotNet project), the warning is shown at event 0. -/
theorem c4_witness :
    Effect.showWarningMessage projectJsonWarningMessage ∈ effectsAt cfgW evsW 0 :=
  (c4_migration_warning_iff cfgW evsW 0 startOutcomeW ⟨some ⟨[projW]⟩, none⟩
      (by decide) rfl).1.mpr ⟨rfl, by decide⟩

/-- A concrete start-event outcome where every asynchronous collaborator
call rejects. -/
def startOutcomeRejected : StartOutcome :=
  { payload := "/work/solution.sln", assetResult := .rejected,
    migrationWorkspaceInfo := .rejected, telemetryWorkspaceInfo := .rejected }

/-- C7: when an asynchronous collaborator call made by a start handler
rejects, none of its downstream effects occur at that event: a rejected
asset pipeline never updates `assetPromptDisabled`, a rejected
workspace-information request of the migration handler never shows a
warning, and a rejected workspace-information request of the telemetry
handler never sends a telemetry event. -/
theorem c7_rejected_calls_no_effects (cfg : Config) (evs : List EventInput) (i : Nat)
    (o : StartOutcome) (hi : evs[i]? = some (.serverStart o)) :
    (o.assetResult = .rejected →
      ∀ v, Effect.workspaceStateUpdate "assetPromptDisabled" v ∉ effectsAt cfg evs i) ∧
    (o.migrationWorkspaceInfo = .rejected →
      ∀ m, Effect.showWarningMessage m ∉ effectsAt cfg evs i) ∧
    (o.telemetryWorkspaceInfo = .rejected →
      ∀ n ms, Effect.telemetryEvent n ms ∉ effectsAt cfg evs i) := by
  rw [effectsAt_eq cfg evs i _ hi]
  refine ⟨?_, ?_, ?_⟩
  · intro har v hm
    rcases mem_startEffects cfg _ o _ hm with
      h1 | ⟨_, _, har2⟩ | ⟨h1, _⟩ | ⟨wi, _, h1⟩ | ⟨_, h1⟩
    · obtain ⟨r, id, hre⟩ := eq_register_of_mem_registerEffects _ _ _ h1
      simp at hre
    · rw [har] at har2; simp at har2
    · simp at h1
    · simp at h1
    · simp at h1
  · intro hmi m hm
    rcases mem_startEffects cfg _ o _ hm with
      h1 | ⟨h1, _⟩ | ⟨_, _, wi, dn, hmi2, _⟩ | ⟨wi, _, h1⟩ | ⟨_, h1⟩
    · obtain ⟨r, id, hre⟩ := eq_register_of_mem_registerEffects _ _ _ h1
      simp at hre
    · simp at h1
    · rw [hmi] at hmi2; simp at hmi2
    · simp at h1
    · simp at h1
  · intro hti n ms hm
    rcases mem_startEffects cfg _ o _ hm with
      h1 | ⟨h1, _⟩ | ⟨h1, _⟩ | ⟨wi, hti2, _⟩ | ⟨_, h1⟩
    · obtain ⟨r, id, hre⟩ := eq_register_of_mem_registerEffects _ _ _ h1
      simp at hre
    · simp at h1
    · simp at h1
    · rw [hti] at hti2; simp at hti2
    · simp at h1

/-- Witness for C7: in a concrete trace whose start event has every
asynchronous call rejected, the migration warning is not shown. -/
theorem c7_witness :
    Effect.showWarningMessage projectJsonWarningMessage ∉
      effectsAt cfgW [.serverStart startOutcomeRejected] 0 :=
  ((c7_rejected_calls_no_effects cfgW [.serverStart startOutcomeRejected] 0
      startOutcomeRejected (by decide)).2.1 rfl) projectJsonWarningMessage

/-- Frame lemma: any workspace-state update produced anywhere in a trace
writes `lastSolutionPathOrFolder`, or writes `true` to
`assetPromptDisabled` under an activation whose persisted flag was not
already truthy. -/
theorem stateUpdate_mem_allEffects (cfg : Config) :
    ∀ (evs : List EventInput) (s : ActState) (k : String) (v : StateValue),
      Effect.workspaceStateUpdate k v ∈ allEffects cfg s evs →
      k = "lastSolutionPathOrFolder" ∨
        (k = "assetPromptDisabled" ∧ v = .boolVal true ∧
          cfg.assetPromptDisabled = false) := by
  intro evs
  induction evs with
  | nil => intro s k v h; simp [allEffects] at h
  | cons ev rest ih =>
    intro s k v h
    rw [allEffects, List.mem_append] at h
    rcases h with h | h
    · cases ev with
      | beforeServerStart path =>
        simp [step] at h
        exact Or.inl h.1
      | serverStart o =>
        rcases mem_startEffects cfg s o _ h with
          h1 | ⟨h1, h2, _⟩ | ⟨h1, _⟩ | ⟨wi, _, h1⟩ | ⟨_, h1⟩
        · obtain ⟨r, id, hre⟩ := eq_register_of_mem_registerEffects _ _ _ h1
          simp at hre
        · simp only [Effect.workspaceStateUpdate.injEq] at h1
          exact Or.inr ⟨h1.1, h1.2, h2⟩
        · simp at h1
        · simp at h1
        · simp at h1
      | serverStop =>
        simp [step] at h
    · exact ih _ k v h

/-- C5: the only persisted workspace-state keys the activation ever
writes are `lastSolutionPathOrFolder` and `assetPromptDisabled`:
every update effect of any trace has one of these keys; every
`onBeforeServerStart` event writes exactly the supplied path to
`lastSolutionPathOrFolder`; and a start event writes `true` to
`assetPromptDisabled` exactly when the asset-prompt handler is
subscribed (the persisted flag was not already truthy) and the asset
pipeline resolves with the `Disable` result. -/
theorem c5_workspace_state_frame (cfg : Config) (evs : List EventInput) :
    (∀ k v, Effect.workspaceStateUpdate k v ∈ traceEffects cfg evs →
      k = "lastSolutionPathOrFolder" ∨
        (k = "assetPromptDisabled" ∧ v = .boolVal true ∧
          cfg.assetPromptDisabled = false)) ∧
    (∀ i path, evs[i]? = some (.beforeServerStart path) →
      effectsAt cfg evs i =
        [.workspaceStateUpdate "lastSolutionPathOrFolder" (.strVal path)]) ∧
    (∀ i o, evs[i]? = some (.serverStart o) →
      (Effect.workspaceStateUpdate "assetPromptDisabled" (.boolVal true) ∈
          effectsAt cfg evs i ↔
        (cfg.assetPromptDisabled = false ∧ o.assetResult = .resolved .disable))) := by
  refine ⟨?_, ?_, ?_⟩
  · intro k v h
    exact stateUpdate_mem_allEffects cfg evs initState k v h
  · intro i path hi
    rw [effectsAt_eq cfg evs i _ hi]
    rfl
  · intro i o hi
    rw [effectsAt_eq cfg evs i _ hi]
    constructor
    · intro hm
      rcases mem_startEffects cfg _ o _ hm with
        h1 | ⟨_, h2, h3⟩ | ⟨h1, _⟩ | ⟨wi, _, h1⟩ | ⟨_, h1⟩
      · obtain ⟨r, id, hre⟩ := eq_register_of_mem_registerEffects _ _ _ h1
        simp at hre
      · exact ⟨h2, h3⟩
      · simp at h1
      · simp at h1
      · simp at h1
    · rintro ⟨hap, har⟩
      exact assetUpdate_mem_startEffects cfg _ o hap har

/-- Witness for C5: in the concrete trace `evsW` under `cfgW` (flag not
set, asset pipeline resolving with Disable), event 0 persists
`assetPromptDisabled := true`. -/
theorem c5_witness :
    Effect.workspaceStateUpdate "assetPromptDisabled" (.boolVal true) ∈
      effectsAt cfgW evsW 0 :=
  ((c5_workspace_state_frame cfgW evsW).2.2 0 startOutcomeW (by decide)).mpr
    ⟨rfl, rfl⟩

/-- Effect predicate: the `OmniSharp.Start` telemetry event. -/
def isStartTelemetry : Effect → Bool
  | .telemetryEvent n _ => n == "OmniSharp.Start"
  | _ => false

/-- Event predicate: a server-start whose telemetry
workspace-information request resolves. -/
def isResolvedStart : EventInput → Bool
  | .serverStart o =>
    match o.telemetryWorkspaceInfo with
    | .resolved _ => true
    | .rejected => false
  | _ => false

/-- A predicate false on all register effects counts none of a register
block. -/
theorem countP_registerEffects_eq_zero (p : Effect → Bool)
    (hp : ∀ r id, p (.register r id) = false) :
    ∀ (rs : List Registration) (n : Nat), (registerEffects n rs).countP p = 0 := by
  intro rs
  induction rs with
  | nil => intro n; simp [registerEffects]
  | cons hd tl ih =>
    intro n
    simp [registerEffects, List.countP_cons, hp, ih (n + 1)]

/-- Per-handler count of `OmniSharp.Start` telemetry effects: only the
telemetry handler emits one, and only when its request resolves. -/
theorem countP_handlerStartEffects_telemetry (cfg : Config) (s : ActState)
    (o : StartOutcome) (h : HandlerKind) :
    (handlerStartEffects cfg s o h).countP isStartTelemetry =
      if h = HandlerKind.startTelemetry then
        (match o.telemetryWorkspaceInfo with
         | .resolved _ => 1
         | .rejected => 0)
      else 0 := by
  obtain ⟨p, ar, mi, ti⟩ := o
  obtain ⟨ld, pr⟩ := s
  cases h with
  | featureRegistration =>
    rw [if_neg (by simp)]
    exact countP_registerEffects_eq_zero _ (fun r id => rfl) _ _
  | assetPrompt =>
    cases ar with
    | resolved v => cases v <;> simp [handlerStartEffects, isStartTelemetry]
    | rejected => simp [handlerStartEffects]
  | migrationWarning =>
    cases mi with
    | resolved wi =>
      obtain ⟨dnet, msb⟩ := wi
      rcases dnet with _ | dn
      · simp [handlerStartEffects]
      · by_cases hlen : dn.Projects.length > 0 <;>
          simp [handlerStartEffects, hlen, isStartTelemetry]
    | rejected => simp [handlerStartEffects]
  | startTelemetry =>
    cases ti with
    | resolved wi => simp [handlerStartEffects, isStartTelemetry]
    | rejected => simp [handlerStartEffects]
  | promiseResolution =>
    cases pr <;> simp [handlerStartEffects, isStartTelemetry]

/-- A start event emits exactly one `OmniSharp.Start` telemetry effect
when the telemetry request resolves, none when it rejects. -/
theorem countP_startEffects_telemetry (cfg : Config) (s : ActState) (o : StartOutcome) :
    (startEffects cfg s o).countP isStartTelemetry =
      (match o.telemetryWorkspaceInfo with
       | .resolved _ => 1
       | .rejected => 0) := by
  cases hA : cfg.assetPromptDisabled <;> cases hS : cfg.suppressProjectJsonWarning <;>
    simp [startEffects, activationServerStartHandlers, hA, hS,
      List.countP_append, countP_handlerStartEffects_telemetry]

/-- The number of `OmniSharp.Start` telemetry effects of a trace equals
its number of start events with a resolving telemetry request. -/
theorem allEffects_countP_telemetry (cfg : Config) :
    ∀ (evs : List EventInput) (s : ActState),
      (allEffects cfg s evs).countP isStartTelemetry = evs.countP isResolvedStart := by
  intro evs
  induction evs with
  | nil => intro s; simp [allEffects]
  | cons ev rest ih =>
    intro s
    rw [allEffects, List.countP_append, ih, List.countP_cons]
    cases ev with
    | beforeServerStart path => simp [step, isStartTelemetry, isResolvedStart]
    | serverStop =>
      simp [step, isResolvedStart, List.countP_map, Function.comp_def, isStartTelemetry]
    | serverStart o =>
      rw [show (step cfg s (.serverStart o)).2 = startEffects cfg s o from rfl,
        countP_startEffects_telemetry]
      obtain ⟨p, ar, mi, ti⟩ := o
      cases ti
      · simp [isResolvedStart]
        omega
      · simp [isResolvedStart]

/-- C2 counterexample: in a trace with two server-start events whose
telemetry requests resolve, the `OmniSharp.Start` telemetry event is
sent twice, so it is not sent at most once per activation. -/
theorem c2_counterexample :
    ¬ ((traceEffects cfgW
        [.serverStart startOutcomeW, .serverStart startOutcomeW]).countP
      isStartTelemetry ≤ 1) := by
  decide

/-- C2 amended: the `OmniSharp.Start` telemetry event is sent once per
server-start event whose workspace-information request resolves (the
handler is subscribed for the whole activation and fires on every
start), not at most once per activation. -/
theorem c2_telemetry_once_per_resolved_start (cfg : Config) (evs : List EventInput) :
    (traceEffects cfg evs).countP isStartTelemetry = evs.countP isResolvedStart :=
  allEffects_countP_telemetry cfg evs initState

/-- The payloads of the promise-resolution effects of an effect list. -/
def resolvePayloads (effs : List Effect) : List String :=
  effs.filterMap fun e =>
    match e with
    | .promiseResolve p => some p
    | _ => none

/-- `resolvePayloads` distributes over append. -/
theorem resolvePayloads_append (l1 l2 : List Effect) :
    resolvePayloads (l1 ++ l2) = resolvePayloads l1 ++ resolvePayloads l2 := by
  simp [resolvePayloads, List.filterMap_append]

/-- Register blocks resolve no promise. -/
theorem resolvePayloads_registerEffects :
    ∀ (rs : List Registration) (n : Nat), resolvePayloads (registerEffects n rs) = [] := by
  intro rs
  induction rs with
  | nil => intro n; rfl
  | cons hd tl ih =>
    intro n
    rw [registerEffects, resolvePayloads, List.filterMap_cons]
    exact ih (n + 1)

/-- Per-handler promise resolutions: only the promise-resolution handler
resolves, and only when the promise is still pending. -/
theorem resolvePayloads_handlerStartEffects (cfg : Config) (s : ActState)
    (o : StartOutcome) (h : HandlerKind) :
    resolvePayloads (handlerStartEffects cfg s o h) =
      if h = HandlerKind.promiseResolution then
        (if s.promiseResolved then [] else [o.payload])
      else [] := by
  obtain ⟨p, ar, mi, ti⟩ := o
  obtain ⟨ld, pr⟩ := s
  cases h with
  | featureRegistration =>
    rw [if_neg (by simp)]
    exact resolvePayloads_registerEffects _ _
  | assetPrompt =>
    cases ar with
    | resolved v => cases v <;> simp [handlerStartEffects, resolvePayloads]
    | rejected => simp [handlerStartEffects, resolvePayloads]
  | migrationWarning =>
    cases mi with
    | resolved wi =>
      obtain ⟨dnet, msb⟩ := wi
      rcases dnet with _ | dn
      · simp [handlerStartEffects, resolvePayloads]
      · by_cases hlen : dn.Projects.length > 0 <;>
          simp [handlerStartEffects, hlen, resolvePayloads]
    | rejected => simp [handlerStartEffects, resolvePayloads]
  | startTelemetry =>
    cases ti with
    | resolved wi => simp [handlerStartEffects, resolvePayloads]
    | rejected => simp [handlerStartEffects, resolvePayloads]
  | promiseResolution =>
    cases pr <;> simp [handlerStartEffects, resolvePayloads]

/-- A start event resolves the promise with its payload when the promise
is pending, and resolves nothing when it has already settled. -/
theorem resolvePayloads_startEffects (cfg : Config) (s : ActState) (o : StartOutcome) :
    resolvePayloads (startEffects cfg s o) =
      if s.promiseResolved then [] else [o.payload] := by
  cases hA : cfg.assetPromptDisabled <;> cases hS : cfg.suppressProjectJsonWarning <;>
    simp [startEffects, activationServerStartHandlers, hA, hS,
      resolvePayloads_append, resolvePayloads_handlerStartEffects]

/-- Once resolved, the promise stays resolved across any step. -/
theorem stepState_promiseResolved_true (cfg : Config) (s : ActState) (ev : EventInput)
    (h : s.promiseResolved = true) : (stepState cfg s ev).promiseResolved = true := by
  cases ev <;> simp [stepState, step, h]

/-- A trace processed from a settled-promise state resolves nothing. -/
theorem resolvePayloads_allEffects_of_resolved (cfg : Config) :
    ∀ (evs : List EventInput) (s : ActState), s.promiseResolved = true →
      resolvePayloads (allEffects cfg s evs) = [] := by
  intro evs
  induction evs with
  | nil => intro s _; rfl
  | cons ev rest ih =>
    intro s hs
    rw [allEffects, resolvePayloads_append,
      ih _ (stepState_promiseResolved_true cfg s ev hs), List.append_nil]
    cases ev with
    | beforeServerStart path => rfl
    | serverStop => simp [step, resolvePayloads, List.filterMap_map, Function.comp_def]
    | serverStart o =>
      rw [show (step cfg s (.serverStart o)).2 = startEffects cfg s o from rfl,
        resolvePayloads_startEffects, hs]
      rfl

/-- A trace processed from a pending-promise state resolves exactly once,
with the payload of its first start event, and never when no start event
occurs. -/
theorem resolvePayloads_allEffects_of_pending (cfg : Config) :
    ∀ (evs : List EventInput) (s : ActState), s.promiseResolved = false →
      resolvePayloads (allEffects cfg s evs) = (firstStartPayload evs).toList := by
  intro evs
  induction evs with
  | nil => intro s _; rfl
  | cons ev rest ih =>
    intro s hs
    rw [allEffects, resolvePayloads_append]
    cases ev with
    | beforeServerStart path =>
      rw [ih (stepState cfg s (.beforeServerStart path)) hs]
      rfl
    | serverStop =>
      rw [ih (stepState cfg s .serverStop) hs]
      simp [step, resolvePayloads, List.filterMap_map, Function.comp_def, firstStartPayload]
    | serverStart o =>
      rw [show (step cfg s (.serverStart o)).2 = startEffects cfg s o from rfl,
        resolvePayloads_startEffects, hs,
        resolvePayloads_allEffects_of_resolved cfg rest _ rfl]
      simp [firstStartPayload]

/-- C8: the promise returned by `activate`
(`new Promise(resolve => server.onServerStart(e => resolve(e)))`)
resolves exactly at the first server-start event of the trace, with that
event's payload, and never resolves when the trace has no start event. -/
theorem c8_promise_resolves_on_first_start (cfg : Config) (evs : List EventInput) :
    resolvePayloads (traceEffects cfg evs) = (firstStartPayload evs).toList :=
  resolvePayloads_allEffects_of_pending cfg evs initState rfl

/-- C9: the local disposable list is never cleared: along any trace it
only ever grows by appending, and every server-stop event disposes every
id either registered at any earlier event or already disposed by any
earlier stop event. -/
theorem c9_disposables_grow_and_stops_dispose_all (cfg : Config) (evs : List EventInput) :
    (∀ i j, i ≤ j → ∃ t, (stateAt cfg evs j).localDisposables =
      (stateAt cfg evs i).localDisposables ++ t) ∧
    (∀ i j id, i < j → evs[j]? = some EventInput.serverStop →
      ((∃ r, Effect.register r id ∈ effectsAt cfg evs i) ∨
        Effect.dispose id ∈ effectsAt cfg evs i) →
      Effect.dispose id ∈ effectsAt cfg evs j) := by
  constructor
  · intro i j hij
    exact stateAt_mono cfg evs hij
  · intro i j id hij hj hsrc
    rw [dispose_mem_effectsAt_stop_iff cfg evs j id hj]
    rcases hevi : evs[i]? with _ | ev
    · rcases hsrc with ⟨r, hm⟩ | hm <;> rw [effectsAt, hevi] at hm <;> simp at hm
    · cases ev with
      | beforeServerStart path =>
        rcases hsrc with ⟨r, hm⟩ | hm <;> rw [effectsAt_eq cfg evs i _ hevi] at hm <;>
          simp [step] at hm
      | serverStart o =>
        rcases hsrc with ⟨r, hm⟩ | hm
        · obtain ⟨_, hlt⟩ := register_id_bounds cfg evs i o r id hevi hm
          exact lt_of_lt_of_le hlt (stateAt_length_mono cfg evs (by omega))
        · rw [effectsAt_eq cfg evs i _ hevi] at hm
          rcases mem_startEffects cfg _ o _ hm with
            h1 | ⟨h1, _⟩ | ⟨h1, _⟩ | ⟨wi, _, h1⟩ | ⟨_, h1⟩
          · obtain ⟨r, id2, hre⟩ := eq_register_of_mem_registerEffects _ _ _ h1
            simp at hre
          all_goals simp at h1
      | serverStop =>
        rcases hsrc with ⟨r, hm⟩ | hm
        · rw [effectsAt_eq cfg evs i _ hevi] at hm
          simp [step] at hm
        · rw [dispose_mem_effectsAt_stop_iff cfg evs i id hevi] at hm
          exact lt_of_lt_of_le hm (stateAt_length_mono cfg evs (le_of_lt hij))

/-- Witness for C9: in the concrete trace `evsW`, the metadata document
provider registered with id 0 at event 0 is disposed by the stop at
event 1. -/
theorem c9_witness : Effect.dispose 0 ∈ effectsAt cfgW evsW 1 :=
  (c9_disposables_grow_and_stops_dispose_all cfgW evsW).2 0 1 0 (by decide) (by decide)
    (Or.inl ⟨⟨.metadataDocProvider, none, []⟩, by decide⟩)

end OmnisharpExtension
